import Mathlib

/-!
Shallow embedding of the agent-communication flow engine
(`src/agent_comm/core/flow_manager.py`) and of the conversation store
(`src/agent_comm/core/state_manager.py`).

Modelling conventions:
* Python `dict`s (insertion-ordered, unique keys, assignment to an existing
  key updates the entry in place) are association lists
  `List (String × α)` with `dictGet` / `dictInsert` / `dictRemove` below.
* Timestamps are epoch seconds as `Nat`; a stored ISO timestamp that would
  fail `datetime.fromisoformat` is `none`, so structure fields that the code
  parses are `Option Nat`.
* `cleanup_old_data` computes `cutoff_time = now - timedelta(hours=hours)`;
  the embedding takes the resulting `cutoff` directly.
* Python truthiness of a string (`if message`) is the test `m ≠ ""`, and of
  a dict (`not msg.get("delivered", False)`) is emptiness of the list.
-/

namespace AgentComm

/-- Python dict read `d.get(k)`: value of the (unique) binding of `k`. -/
def dictGet (k : String) : List (String × α) → Option α
  | [] => none
  | (k', v) :: rest => if k' = k then some v else dictGet k rest

/-- Python dict write `d[k] = v`: update the binding in place if `k` is
already present (keeping its position), otherwise append it at the end. -/
def dictInsert (k : String) (v : α) : List (String × α) → List (String × α)
  | [] => [(k, v)]
  | (k', v') :: rest =>
    if k' = k then (k, v) :: rest else (k', v') :: dictInsert k v rest

/-- Python dict delete `del d[k]`: drop the (unique) binding of `k`. -/
def dictRemove (k : String) : List (String × α) → List (String × α)
  | [] => []
  | (k', v) :: rest => if k' = k then rest else (k', v) :: dictRemove k rest

/-- One entry of `waiting_agents.json`: a waiting session, as written by
`register_waiting_agent` and mutated by the deliver operations. -/
structure AgentSession where
  agent_tool : String
  agent_id : String
  conversation_id : String
  participants : List String
  message : Option String
  timestamp : Option Nat
  status : String
  delivered_message : Option String := none
  delivered_at : Option Nat := none
  deriving Repr, DecidableEq

/-- One entry of `message_queue.json`'s `pending_messages`, as written by
`add_message_to_queue`.  `delivered_all` is `none` until
`mark_message_delivered` first sets it. -/
structure QueueMessage where
  id : String
  conversation_id : String
  from_agent : String
  message : String
  targets : List String
  timestamp : Option Nat
  delivered : List (String × Bool)
  delivered_all : Option Bool := none
  delivered_at : Option Nat := none
  waiting_id : Option String := none
  deriving Repr, DecidableEq

/-- One entry of `conversation_flow.json`'s `active_conversations`. -/
structure Conversation where
  conversation_id : String
  participants : List String
  created_at : Nat
  last_update : Nat
  deriving Repr, DecidableEq

/-- The three JSON files the flow manager owns. -/
structure FlowState where
  waiting_agents : List (String × AgentSession)
  pending_messages : List QueueMessage
  active_conversations : List Conversation
  deriving Repr, DecidableEq

/-- Dict comprehension `{t: False for t in targets}` over the targets. -/
def mkDelivered (targets : List String) : List (String × Bool) :=
  targets.foldl (fun d t => dictInsert t false d) []

/-- Embeds `add_message_to_queue`: append a message entry whose `targets` are the
participants other than the sender, with all delivery flags false and no
`delivered_all` field yet. -/
def addMessageToQueue (now : Nat) (conversation_id from_agent message : String)
    (participants : List String) (waiting_id : Option String)
    (queue : List QueueMessage) : List QueueMessage :=
  let targets := participants.filter (fun p => p ≠ from_agent)
  queue ++ [{ id := "msg_" ++ toString now
              conversation_id := conversation_id
              from_agent := from_agent
              message := message
              targets := targets
              timestamp := some now
              delivered := mkDelivered targets
              waiting_id := waiting_id }]

/-- The loop body of `mark_message_delivered` applied to the matching
message: default the recipient list to all current `delivered` keys, flip
the flag of each recipient already present (ids not in `delivered` are
skipped), recompute `delivered_all`, and stamp `delivered_at` when it is
true. -/
def markOneMessage (now : Nat) (agent_ids : Option (List String))
    (msg : QueueMessage) : QueueMessage :=
  let ids := agent_ids.getD (msg.delivered.map Prod.fst)
  let delivered' :=
    ids.foldl (fun d a => if (dictGet a d).isSome then dictInsert a true d else d)
      msg.delivered
  let dall : Bool := if delivered'.isEmpty then true
    else delivered'.all (fun kv => kv.2)
  { msg with delivered := delivered'
             delivered_all := some dall
             delivered_at := if dall then some now else msg.delivered_at }

/-- Embeds `mark_message_delivered`: scan `pending_messages`, update the first
message with the given id (the loop `break`s), leave the rest untouched. -/
def markMessageDelivered (now : Nat) (message_id : String)
    (agent_ids : Option (List String)) :
    List QueueMessage → List QueueMessage
  | [] => []
  | msg :: rest =>
    if msg.id = message_id then markOneMessage now agent_ids msg :: rest
    else msg :: markMessageDelivered now message_id agent_ids rest

/-- The match test of `deliver_message_to_participants`: same conversation,
recipient among the requested agent ids, and still waiting. -/
def sessionMatches (conversation_id : String) (agent_ids : List String)
    (s : AgentSession) : Bool :=
  decide (s.conversation_id = conversation_id ∧ s.agent_id ∈ agent_ids ∧
    s.status = "waiting")

/-- The in-place mutation `deliver_message_to_participants` performs on a
matching session. -/
def flipSession (now : Nat) (text : String) (s : AgentSession) : AgentSession :=
  { s with status := "delivered"
           delivered_message := some text
           delivered_at := some now }

/-- The `for waiting_id, agent_data in waiting_data.items()` loop of
`deliver_message_to_participants`: flip every matching session, recording
whether any was flipped. -/
def deliverLoop (now : Nat) (conversation_id : String) (agent_ids : List String)
    (text : String) :
    List (String × AgentSession) → List (String × AgentSession) × Bool
  | [] => ([], false)
  | (k, s) :: rest =>
    let r := deliverLoop now conversation_id agent_ids text rest
    if sessionMatches conversation_id agent_ids s then
      ((k, flipSession now text s) :: r.1, true)
    else ((k, s) :: r.1, r.2)

/-- Embeds `deliver_message_to_participants`: flip the matching waiting sessions;
only if at least one was flipped, write the sessions back and call
`mark_message_delivered` on the queue.  Returns whether any was flipped. -/
def deliverMessageToParticipants (now : Nat) (conversation_id : String)
    (agent_ids : List String) (message_content message_id : String)
    (st : FlowState) : FlowState × Bool :=
  let r := deliverLoop now conversation_id agent_ids message_content
    st.waiting_agents
  if r.2 then
    ({ st with
        waiting_agents := r.1
        pending_messages :=
          markMessageDelivered now message_id (some agent_ids)
            st.pending_messages }, true)
  else (st, false)

/-- Embeds `deliver_message_to_agent`: if the session id is present, set its status
to delivered with the content and a delivery stamp. -/
def deliverMessageToAgent (now : Nat) (waiting_id : String)
    (message_content : String) (waiting : List (String × AgentSession)) :
    List (String × AgentSession) × Bool :=
  match dictGet waiting_id waiting with
  | some s =>
    (dictInsert waiting_id
      { s with status := "delivered"
               delivered_message := some message_content
               delivered_at := some now } waiting, true)
  | none => (waiting, false)

/-- Embeds `remove_waiting_agent`: delete the session record if present. -/
def removeWaitingAgent (waiting_id : String)
    (waiting : List (String × AgentSession)) : List (String × AgentSession) :=
  dictRemove waiting_id waiting

/-- Embeds the `set` union performed by the conversation upsert inside
`register_waiting_agent` (`existing_participants.update(participants)`).
Python's `set` iterates in an unspecified order; the embedding fixes the
first-occurrence order, which no operation observes. -/
def setUnion (a b : List String) : List String := (a ++ b).dedup

/-- The conversation-tracking update inside `register_waiting_agent`: the
first entry with the given id, if any, gets the participants merged in and
`last_update` bumped. -/
def updateExistingConv (now : Nat) (conversation_id : String)
    (participants : List String) : List Conversation → List Conversation
  | [] => []
  | c :: rest =>
    if c.conversation_id = conversation_id then
      { c with participants := setUnion c.participants participants
               last_update := now } :: rest
    else c :: updateExistingConv now conversation_id participants rest

/-- The conversation upsert of `register_waiting_agent`: merge into the
existing entry when one with this id exists, otherwise append a new one. -/
def upsertConversation (now : Nat) (conversation_id : String)
    (participants : List String) (convs : List Conversation) :
    List Conversation :=
  if convs.any (fun c => c.conversation_id = conversation_id) then
    updateExistingConv now conversation_id participants convs
  else
    convs ++ [{ conversation_id := conversation_id
                participants := participants
                created_at := now
                last_update := now }]

/-- The waiting-session id `register_waiting_agent` generates:
`f"{agent_tool}_{int(time.time())}"`. -/
def mkWaitingId (agent_tool : String) (now : Nat) : String :=
  agent_tool ++ "_" ++ toString now

/-- Embeds `register_waiting_agent`: default the participants to `[agent_id]` and
the conversation id to `conv_<now>`, upsert the conversation, store a fresh
waiting session under the generated id, and (when a non-empty message is
given and the queue is not skipped) enqueue the message.  Returns the new
state and the session id.  The code performs no input validation. -/
def registerWaitingAgent (now : Nat) (agent_tool agent_id : String)
    (message : Option String) (participants0 : Option (List String))
    (conversation_id0 : Option String) (skip_queue : Bool)
    (st : FlowState) : FlowState × String :=
  let participants := participants0.getD [agent_id]
  let conversation_id := conversation_id0.getD ("conv_" ++ toString now)
  let convs := upsertConversation now conversation_id participants
    st.active_conversations
  let waiting_id := mkWaitingId agent_tool now
  let session : AgentSession :=
    { agent_tool := agent_tool
      agent_id := agent_id
      conversation_id := conversation_id
      participants := participants
      message := message
      timestamp := some now
      status := "waiting" }
  let waiting := dictInsert waiting_id session st.waiting_agents
  let queue :=
    if (message.getD "" ≠ "") ∧ ¬skip_queue then
      addMessageToQueue now conversation_id agent_id (message.getD "")
        participants (some waiting_id) st.pending_messages
    else st.pending_messages
  ({ waiting_agents := waiting
     pending_messages := queue
     active_conversations := convs }, waiting_id)

/-- The waiting-agents pass of `cleanup_old_data`: keep a session iff its
timestamp is after the cutoff or does not parse. -/
def cleanupWaiting (cutoff : Nat) (waiting : List (String × AgentSession)) :
    List (String × AgentSession) :=
  waiting.filter (fun kv =>
    match kv.2.timestamp with
    | some t => decide (cutoff < t)
    | none => true)

/-- The message-queue pass of `cleanup_old_data`: keep a message iff its
timestamp is after the cutoff, or does not parse, or
`not msg.get("delivered", False)` — the truthiness test on the `delivered`
dict, i.e. the dict is empty. -/
def cleanupMessages (cutoff : Nat) (msgs : List QueueMessage) :
    List QueueMessage :=
  msgs.filter (fun msg =>
    match msg.timestamp with
    | some t => decide (cutoff < t) || msg.delivered.isEmpty
    | none => true)

/-- Embeds `cleanup_old_data` with `cutoff = now - hours*3600`: filter both the
waiting sessions and the message queue. -/
def cleanupOldData (cutoff : Nat) (st : FlowState) : FlowState :=
  { st with waiting_agents := cleanupWaiting cutoff st.waiting_agents
            pending_messages := cleanupMessages cutoff st.pending_messages }

/-- One poll of `wait_for_delivery`
(`status and status.get("status") == "delivered"`): `some r` when the loop
returns with `r = status.get("delivered_message")`, `none` when it keeps
waiting. -/
def pollDelivered (s : Option AgentSession) : Option (Option String) :=
  match s with
  | some st => if st.status = "delivered" then some st.delivered_message else none
  | none => none

/-- Embeds `wait_for_delivery` in discrete time: the loop sleeps one second per
iteration, so the status read at iteration `k` is `trace k` and the elapsed
time at the timeout check of iteration `k` is `k` seconds.  `fuel` bounds
how many iterations we unfold: the result is `none` while the loop is still
running, `some r` once it returns (`r = none` is Python's `None`, the
timeout sentinel). -/
def waitForDelivery (trace : Nat → Option AgentSession)
    (timeout : Option Nat) : Nat → Nat → Option (Option String)
  | 0, _ => none
  | fuel + 1, k =>
    match pollDelivered (trace k) with
    | some r => some r
    | none =>
      match timeout with
      | some t =>
        if t ≤ k then some none
        else waitForDelivery trace timeout fuel (k + 1)
      | none => waitForDelivery trace timeout fuel (k + 1)

/-- The flow-engine operations quantified over by the status-transition
invariant. -/
inductive FlowOp where
  | register (now : Nat) (agent_tool agent_id : String)
      (message : Option String) (participants : Option (List String))
      (conversation_id : Option String) (skip_queue : Bool)
  | deliverToAgent (now : Nat) (waiting_id : String) (content : String)
  | deliverToParticipants (now : Nat) (conversation_id : String)
      (agent_ids : List String) (content : String) (message_id : String)
  | removeAgent (waiting_id : String)
  | cleanup (cutoff : Nat)
  deriving Repr, DecidableEq

/-- Run one flow-engine operation on the shared state. -/
def applyOp : FlowOp → FlowState → FlowState
  | .register now tool aid msg parts cid skip, st =>
    (registerWaitingAgent now tool aid msg parts cid skip st).1
  | .deliverToAgent now wid content, st =>
    { st with waiting_agents :=
        (deliverMessageToAgent now wid content st.waiting_agents).1 }
  | .deliverToParticipants now cid aids content mid, st =>
    (deliverMessageToParticipants now cid aids content mid st).1
  | .removeAgent wid, st =>
    { st with waiting_agents := removeWaitingAgent wid st.waiting_agents }
  | .cleanup cutoff, st => cleanupOldData cutoff st

/-- Holds when `applyOp op st` writes a waiting session at the key
`register_waiting_agent` would generate while that key is already bound:
the Python dict assignment then overwrites the existing record. -/
def opReusesWaitingId (op : FlowOp) (st : FlowState) : Bool :=
  match op with
  | .register now tool _ _ _ _ _ =>
    (dictGet (mkWaitingId tool now) st.waiting_agents).isSome
  | _ => false

end AgentComm

namespace StateMgr

/-- One message inside a `conversations.json` conversation, as written by
`StateManager.add_message`. -/
structure StateMessage where
  id : String
  from_agent : String
  to_agent : String
  content : String
  timestamp : Nat
  status : String
  deriving Repr, DecidableEq

/-- One `conversations.json` record (`StateManager`). -/
structure SMConversation where
  participants : List String
  created_at : Nat
  last_update : Nat
  message_count : Nat
  messages : List StateMessage
  deriving Repr, DecidableEq

/-- Embeds `StateManager.create_conversation`: store a fresh two-participant record
under the generated id and return the id. -/
def createConversation (now : Nat) (agent1 agent2 : String)
    (convs : List (String × SMConversation)) :
    List (String × SMConversation) × String :=
  let conv_id := agent1 ++ "_" ++ agent2 ++ "_" ++ toString now
  (AgentComm.dictInsert conv_id
    { participants := [agent1, agent2]
      created_at := now
      last_update := now
      message_count := 0
      messages := [] } convs, conv_id)

/-- Embeds `StateManager.find_conversation_between_agents`: linear scan, returning
the first conversation whose participants CONTAIN both agents. -/
def findConversationBetweenAgents (agent1 agent2 : String) :
    List (String × SMConversation) → Option String
  | [] => none
  | (conv_id, c) :: rest =>
    if agent1 ∈ c.participants ∧ agent2 ∈ c.participants then some conv_id
    else findConversationBetweenAgents agent1 agent2 rest

end StateMgr

namespace AgentComm

/-- The empty shared state, as `_initialize_files` creates it. -/
def emptyFlowState : FlowState :=
  { waiting_agents := [], pending_messages := [], active_conversations := [] }

/-- A queued message older than any small cutoff with one undelivered
target: `delivered = {"b": False}`, so it is not fully delivered. -/
def ex1OldMsg : QueueMessage :=
  { id := "msg_0"
    conversation_id := "c"
    from_agent := "a"
    message := "hi"
    targets := ["b"]
    timestamp := some 0
    delivered := [("b", false)] }

/-- A waiting session for agent `b` in conversation `c`. -/
def ex2Wait : AgentSession :=
  { agent_tool := "t"
    agent_id := "b"
    conversation_id := "c"
    participants := ["a", "b"]
    message := none
    timestamp := some 1
    status := "waiting" }

/-- A queued message from `a` to `b` awaiting delivery. -/
def ex2Msg : QueueMessage :=
  { id := "m1"
    conversation_id := "c"
    from_agent := "a"
    message := "hello"
    targets := ["b"]
    timestamp := some 1
    delivered := [("b", false)] }

/-- A state with one waiting session and one pending message. -/
def ex2State : FlowState :=
  { waiting_agents := [("t_1", ex2Wait)]
    pending_messages := [ex2Msg]
    active_conversations := [] }

/-- A session already delivered, holding message `"x"`. -/
def ex3Delivered : AgentSession :=
  { agent_tool := "t"
    agent_id := "b"
    conversation_id := "c"
    participants := ["a", "b"]
    message := none
    timestamp := some 1
    status := "delivered"
    delivered_message := some "x"
    delivered_at := some 2 }

/-- Python dict lookup after writing the same key finds the new value. -/
theorem dictGet_dictInsert_self (k : String) (v : α) (d : List (String × α)) :
    dictGet k (dictInsert k v d) = some v := by
  induction d with
  | nil => simp [dictInsert, dictGet]
  | cons kv rest ih =>
    obtain ⟨k', v'⟩ := kv
    by_cases h : k' = k
    · simp [dictInsert, dictGet, h]
    · simp [dictInsert, dictGet, h, ih]

/-- Python dict lookup of a different key is unaffected by a write. -/
theorem dictGet_dictInsert_ne {k' k : String} (v : α) (d : List (String × α))
    (h : k' ≠ k) : dictGet k (dictInsert k' v d) = dictGet k d := by
  induction d with
  | nil => simp [dictInsert, dictGet, h]
  | cons kv rest ih =>
    obtain ⟨k0, v0⟩ := kv
    by_cases h0 : k0 = k'
    · subst h0
      simp [dictInsert, dictGet, h]
    · simp [dictInsert, dictGet, h0, ih]

/-- A successful dict lookup is a binding of the association list. -/
theorem dictGet_mem {k : String} {v : α} {d : List (String × α)}
    (h : dictGet k d = some v) : (k, v) ∈ d := by
  induction d with
  | nil => simp [dictGet] at h
  | cons kv rest ih =>
    obtain ⟨k0, v0⟩ := kv
    by_cases h0 : k0 = k
    · subst h0
      simp [dictGet] at h
      simp [h]
    · simp [dictGet, h0] at h
      exact List.mem_cons_of_mem _ (ih h)

/-- Deleting one key only drops bindings; survivors were already there. -/
theorem mem_of_mem_dictRemove {k0 k : String} {v : α} {d : List (String × α)}
    (h : (k, v) ∈ dictRemove k0 d) : (k, v) ∈ d := by
  induction d with
  | nil => simp [dictRemove] at h
  | cons kv rest ih =>
    obtain ⟨k1, v1⟩ := kv
    by_cases h1 : k1 = k0
    · simp [dictRemove, h1] at h
      exact List.mem_cons_of_mem _ h
    · simp [dictRemove, h1] at h
      rcases h with h | h
      · simp [h]
      · exact List.mem_cons_of_mem _ (ih h)

/-- With no duplicate keys a key determines its value. -/
theorem dict_value_unique {k : String} {v v' : α} {d : List (String × α)}
    (hnd : (d.map Prod.fst).Nodup) (h : (k, v) ∈ d) (h' : (k, v') ∈ d) :
    v = v' := by
  induction d with
  | nil => simp at h
  | cons kv rest ih =>
    obtain ⟨k1, v1⟩ := kv
    simp only [List.map_cons, List.nodup_cons] at hnd
    rcases List.mem_cons.mp h with h0 | h0 <;>
      rcases List.mem_cons.mp h' with h1 | h1
    · rw [Prod.mk.injEq] at h0 h1
      rw [h0.2, h1.2]
    · exfalso
      apply hnd.1
      rw [Prod.mk.injEq] at h0
      rw [← h0.1]
      exact List.mem_map_of_mem Prod.fst h1
    · exfalso
      apply hnd.1
      rw [Prod.mk.injEq] at h1
      rw [← h1.1]
      exact List.mem_map_of_mem Prod.fst h0
    · exact ih hnd.2 h0 h1

/-- A dict write leaves the key list unchanged when the key is already
bound, and appends the key otherwise. -/
theorem keys_dictInsert (k : String) (v : α) (d : List (String × α)) :
    (dictInsert k v d).map Prod.fst =
      if k ∈ d.map Prod.fst then d.map Prod.fst
      else d.map Prod.fst ++ [k] := by
  induction d with
  | nil => simp [dictInsert]
  | cons kv rest ih =>
    obtain ⟨k0, v0⟩ := kv
    by_cases h0 : k0 = k
    · subst h0
      simp [dictInsert]
    · by_cases h1 : k ∈ rest.map Prod.fst <;>
        simp [dictInsert, Ne.symm h0, h0, h1, ih]

/-- Keys present after a dict write were present before, or are the new key. -/
theorem mem_keys_dictInsert {x k : String} {v : α} {d : List (String × α)}
    (h : x ∈ (dictInsert k v d).map Prod.fst) :
    x = k ∨ x ∈ d.map Prod.fst := by
  rw [keys_dictInsert] at h
  by_cases h0 : k ∈ d.map Prod.fst
  · rw [if_pos h0] at h
    exact Or.inr h
  · rw [if_neg h0] at h
    rcases List.mem_append.mp h with h1 | h1
    · exact Or.inr h1
    · simp at h1
      exact Or.inl h1

/-- Keys of the delivery-flag dict built at enqueue come from the targets. -/
theorem mem_keys_mkDelivered_foldl {x : String} :
    ∀ (ts : List String) (acc : List (String × Bool)),
      x ∈ ((ts.foldl (fun d t => dictInsert t false d) acc).map Prod.fst) →
      x ∈ ts ∨ x ∈ acc.map Prod.fst := by
  intro ts
  induction ts with
  | nil =>
    intro acc h
    exact Or.inr h
  | cons t rest ih =>
    intro acc h
    rcases ih (dictInsert t false acc) h with h1 | h1
    · exact Or.inl (List.mem_cons_of_mem _ h1)
    · rcases mem_keys_dictInsert h1 with h2 | h2
      · exact Or.inl (by simp [h2])
      · exact Or.inr h2

/-- Keys of the delivery-flag dict built at enqueue come from the targets. -/
theorem mem_keys_mkDelivered {x : String} {ts : List String}
    (h : x ∈ (mkDelivered ts).map Prod.fst) : x ∈ ts := by
  rcases mem_keys_mkDelivered_foldl ts [] h with h1 | h1
  · exact h1
  · simp at h1

/-- A session passing the delivery match test is still waiting. -/
theorem sessionMatches_status {cid : String} {aids : List String}
    {s : AgentSession} (h : sessionMatches cid aids s = true) :
    s.status = "waiting" :=
  (of_decide_eq_true h).2.2

/-- The delivery loop reports whether any stored session matches. -/
theorem deliverLoop_snd (now : Nat) (cid : String) (aids : List String)
    (text : String) (w : List (String × AgentSession)) :
    (deliverLoop now cid aids text w).2
      = w.any (fun kv => sessionMatches cid aids kv.2) := by
  induction w with
  | nil => simp [deliverLoop]
  | cons kv rest ih =>
    obtain ⟨k, s⟩ := kv
    cases hm : sessionMatches cid aids s <;> simp [deliverLoop, hm, ih]

/-- Pointwise effect of the delivery loop on the stored sessions: a key's
session is flipped exactly when it matches. -/
theorem dictGet_deliverLoop (now : Nat) (cid : String) (aids : List String)
    (text : String) (w : List (String × AgentSession)) (k : String) :
    dictGet k (deliverLoop now cid aids text w).1
      = (dictGet k w).map
          (fun s => if sessionMatches cid aids s then flipSession now text s
            else s) := by
  induction w with
  | nil => simp [deliverLoop, dictGet]
  | cons kv rest ih =>
    obtain ⟨k0, s0⟩ := kv
    cases hm : sessionMatches cid aids s0 <;> by_cases hk : k0 = k <;>
      simp [deliverLoop, dictGet, hm, hk, ih]

/-- Recomputation step: the `delivered_all` written by the mark operation is
exactly the conjunction of the (new) per-target flags. -/
theorem markOneMessage_delivered_all (now : Nat) (ids : Option (List String))
    (msg : QueueMessage) :
    (markOneMessage now ids msg).delivered_all
      = some ((markOneMessage now ids msg).delivered.all (fun kv => kv.2)) := by
  have h : ∀ (l : List (String × Bool)),
      (if l.isEmpty then true else l.all (fun kv => kv.2))
        = l.all (fun kv => kv.2) := by
    intro l
    cases l <;> simp
  simp only [markOneMessage, h]

/-- FAILING INPUT for claim C1: an old, partially delivered message.  The
message-queue pass of `cleanup_old_data` keeps a message only when it is
newer than the cutoff or its `delivered` dict is EMPTY (the truthiness test
`not msg.get("delivered", False)`), so `ex1OldMsg` — whose single target
`"b"` has flag `false` and whose `delivered_all` would be `false` — is
removed once old, contradicting the spec's "undelivered messages are
retained regardless of age". -/
theorem C1_cleanup_removes_undelivered_message :
    cleanupMessages 5 [ex1OldMsg] = [] ∧
    (cleanupOldData 5
        { waiting_agents := []
          pending_messages := [ex1OldMsg]
          active_conversations := [] }).pending_messages = [] ∧
    ex1OldMsg.delivered.all (fun kv => kv.2) = false ∧
    ex1OldMsg.delivered = [("b", false)] := by
  refine ⟨rfl, rfl, rfl, rfl⟩

/-- COUNTEREXAMPLE for claim C4: a message created by
`add_message_to_queue` with the sender as the only participant has
`targets = ∅` and an empty `delivered` dict, yet its `delivered_all` field
is absent (`none`), not `true`: the creation path never writes
`delivered_all`. -/
theorem C4_counterexample :
    (addMessageToQueue 100 "c1" "alice" "hi" ["alice"] none []).map
        (fun m => (m.delivered_all, m.delivered, m.targets))
      = [(none, [], [])] ∧
    (addMessageToQueue 100 "c1" "alice" "hi" ["alice"] none []).map
        (fun m => decide (m.delivered_all = some true))
      = [false] := by
  refine ⟨rfl, rfl⟩

/-- Claim C4 (amended): `delivered_all` is absent (`none`) on every freshly
enqueued message — `add_message_to_queue` never writes the field — and it
is `mark_message_delivered`'s recompute that sets it, to `some true` exactly
when every key of the (updated) `delivered` dict maps to `true` (vacuously
`true` when the dict is empty). -/
theorem C4_delivered_all_recompute :
    (∀ (now : Nat) (ids : Option (List String)) (msg : QueueMessage),
      (markOneMessage now ids msg).delivered_all
        = some ((markOneMessage now ids msg).delivered.all (fun kv => kv.2))) ∧
    (∀ (now : Nat) (cid fa m : String) (parts : List String)
        (wid : Option String) (q : List QueueMessage),
      (addMessageToQueue now cid fa m parts wid q).map
          (fun msg => msg.delivered_all)
        = q.map (fun msg => msg.delivered_all) ++ [none]) := by
  constructor
  · exact markOneMessage_delivered_all
  · intro now cid fa m parts wid q
    simp [addMessageToQueue]

/-- Claim C7 (confirmed): the message appended by `add_message_to_queue`
has `targets = participants.filter (· ≠ from_agent)`, so the sender is
never among the targets nor among the keys of the `delivered` dict, even
when the sender occurs several times in the participants list. -/
theorem C7_enqueue_excludes_sender :
    ∀ (now : Nat) (cid fa m : String) (parts : List String)
      (wid : Option String) (q : List QueueMessage),
      ((addMessageToQueue now cid fa m parts wid q).getLast?).map
          (fun msg => (decide (fa ∈ msg.targets),
            decide (fa ∈ msg.delivered.map Prod.fst), msg.targets))
        = some (false, false, parts.filter (fun p => p ≠ fa)) := by
  intro now cid fa m parts wid q
  unfold addMessageToQueue
  rw [List.getLast?_concat]
  have hTargets : ¬fa ∈ parts.filter (fun p => p ≠ fa) := by
    intro hmem
    have h2 := (List.mem_filter.mp hmem).2
    simp at h2
  have hKeys : ¬fa ∈ (mkDelivered (parts.filter (fun p => p ≠ fa))).map
      Prod.fst := by
    intro hmem
    exact hTargets (mem_keys_mkDelivered hmem)
  simp only [Option.map_some', decide_eq_false hTargets, decide_eq_false hKeys]

/-- Unfolding of `deliver_message_to_participants` as a conditional on the
loop's "any session flipped" flag. -/
theorem deliverMessageToParticipants_eq (now : Nat) (cid : String)
    (aids : List String) (text mid : String) (st : FlowState) :
    deliverMessageToParticipants now cid aids text mid st
      = if (deliverLoop now cid aids text st.waiting_agents).2 then
          ({ st with
              waiting_agents := (deliverLoop now cid aids text st.waiting_agents).1
              pending_messages :=
                markMessageDelivered now mid (some aids) st.pending_messages },
            true)
        else (st, false) := rfl

/-- Claim C8 is violated by the code (code bug): `register_waiting_agent`
performs no input validation.  Called with an empty agent id and an empty
participants list it does not fail: it stores a waiting session with
`agent_id = ""` and an empty-participants conversation record, and returns
a session id — instead of rejecting the call before touching storage. -/
theorem C8_register_accepts_invalid_input :
    ((registerWaitingAgent 100 "tool" "" none (some []) none false
        emptyFlowState).1.waiting_agents).map
        (fun kv => (kv.1, kv.2.agent_id, kv.2.participants, kv.2.status))
      = [("tool_100", "", [], "waiting")] ∧
    (registerWaitingAgent 100 "tool" "" none (some []) none false
        emptyFlowState).1.active_conversations
      = [{ conversation_id := "conv_100"
           participants := []
           created_at := 100
           last_update := 100 }] ∧
    (registerWaitingAgent 100 "tool" "" none (some []) none false
        emptyFlowState).2 = "tool_100" := by
  refine ⟨rfl, rfl, rfl⟩

/-- Claim C9 is violated by the code (code bug): the generated session id is
`f"{agent_tool}_{int(time.time())}"`, so two registrations with the same
tool in the same epoch second get the SAME id and the second call's dict
write overwrites the first session — here both calls yield
`"agent_chat_1_100"` and only bob's record survives. -/
theorem C9_waiting_id_collision :
    (registerWaitingAgent 100 "agent_chat_1" "alice" none none none false
        emptyFlowState).2
      = (registerWaitingAgent 100 "agent_chat_1" "bob" none none none false
          (registerWaitingAgent 100 "agent_chat_1" "alice" none none none false
            emptyFlowState).1).2 ∧
    (registerWaitingAgent 100 "agent_chat_1" "alice" none none none false
        emptyFlowState).2 = "agent_chat_1_100" ∧
    ((registerWaitingAgent 100 "agent_chat_1" "bob" none none none false
        (registerWaitingAgent 100 "agent_chat_1" "alice" none none none false
          emptyFlowState).1).1.waiting_agents).map
        (fun kv => (kv.1, kv.2.agent_id))
      = [("agent_chat_1_100", "bob")] := by
  refine ⟨rfl, rfl, rfl⟩

/-- Claim C10 (confirmed): when `deliver_message_to_participants` returns
false — no stored session matches the conversation, recipients and waiting
status — it performs no write at all: the returned state (waiting sessions,
message queue and conversations alike) is exactly the input state, and in
particular `mark_message_delivered` has not touched the queue. -/
theorem C10_failed_delivery_writes_nothing :
    ∀ (now : Nat) (cid : String) (aids : List String) (text mid : String)
      (st : FlowState),
      (deliverMessageToParticipants now cid aids text mid st).2 = false →
      (deliverMessageToParticipants now cid aids text mid st).1 = st := by
  intro now cid aids text mid st h
  rw [deliverMessageToParticipants_eq] at h ⊢
  cases hr : (deliverLoop now cid aids text st.waiting_agents).2
  · simp
  · rw [hr] at h
    simp at h

/-- Witness for C10: on a state whose only session waits in conversation
`"c"`, a delivery aimed at conversation `"zzz"` flips nothing and leaves the
state untouched. -/
theorem C10_witness :
    (deliverMessageToParticipants 5 "zzz" ["b"] "hello" "m1" ex2State).1
      = ex2State :=
  C10_failed_delivery_writes_nothing 5 "zzz" ["b"] "hello" "m1" ex2State
    (by decide)

/-- Claim C2 (confirmed): `deliver_message_to_participants` flips every
stored waiting session matching the conversation id whose agent is among
the recipients (`flipSession` sets status `"delivered"` and
`delivered_message = some text`); it returns true iff at least one stored
session matches (and is hence flipped); and on a true return the queue has
been put through `mark_message_delivered(message_id, recipient_ids)`. -/
theorem C2_deliver_to_participants_contract :
    ∀ (now : Nat) (cid : String) (aids : List String) (text mid : String)
      (st : FlowState),
      (∀ (k : String) (s : AgentSession),
        dictGet k st.waiting_agents = some s →
        sessionMatches cid aids s = true →
        dictGet k
            ((deliverMessageToParticipants now cid aids text mid st).1).waiting_agents
          = some (flipSession now text s)) ∧
      ((deliverMessageToParticipants now cid aids text mid st).2 = true ↔
        ∃ kv ∈ st.waiting_agents, sessionMatches cid aids kv.2 = true) ∧
      ((deliverMessageToParticipants now cid aids text mid st).2 = true →
        ((deliverMessageToParticipants now cid aids text mid st).1).pending_messages
          = markMessageDelivered now mid (some aids) st.pending_messages) := by
  intro now cid aids text mid st
  cases hr : (deliverLoop now cid aids text st.waiting_agents).2
  · have he : deliverMessageToParticipants now cid aids text mid st
        = (st, false) := by
      rw [deliverMessageToParticipants_eq, hr]
      simp
    have hall : ∀ kv ∈ st.waiting_agents,
        ¬sessionMatches cid aids kv.2 = true := by
      rw [deliverLoop_snd] at hr
      simpa using List.any_eq_false.mp hr
    refine ⟨?_, ?_, ?_⟩
    · intro k s hget hm
      exact absurd hm (hall (k, s) (dictGet_mem hget))
    · rw [he]
      constructor
      · intro hfalse
        exact absurd hfalse (by simp)
      · rintro ⟨kv, hmem, hkv⟩
        exact absurd hkv (hall kv hmem)
    · intro htrue
      rw [he] at htrue
      exact absurd htrue (by simp)
  · have he : deliverMessageToParticipants now cid aids text mid st
        = ({ st with
              waiting_agents := (deliverLoop now cid aids text st.waiting_agents).1
              pending_messages :=
                markMessageDelivered now mid (some aids) st.pending_messages },
            true) := by
      rw [deliverMessageToParticipants_eq, hr]
      simp
    refine ⟨?_, ?_, ?_⟩
    · intro k s hget hm
      rw [he]
      show dictGet k (deliverLoop now cid aids text st.waiting_agents).1
        = some (flipSession now text s)
      rw [dictGet_deliverLoop, hget]
      simp [hm]
    · rw [he]
      constructor
      · intro _
        rw [deliverLoop_snd] at hr
        simpa using List.any_eq_true.mp hr
      · intro _
        rfl
    · intro _
      rw [he]

/-- Witness for C2: delivering `"hello"` to agent `"b"` in conversation
`"c"` flips the stored waiting session `"t_1"` and marks message `"m1"`. -/
theorem C2_witness :
    dictGet "t_1"
        ((deliverMessageToParticipants 5 "c" ["b"] "hello" "m1" ex2State).1).waiting_agents
      = some (flipSession 5 "hello" ex2Wait) ∧
    (deliverMessageToParticipants 5 "c" ["b"] "hello" "m1" ex2State).2 = true :=
  ⟨(C2_deliver_to_participants_contract 5 "c" ["b"] "hello" "m1" ex2State).1
      "t_1" ex2Wait (by decide) (by decide),
   ((C2_deliver_to_participants_contract 5 "c" ["b"] "hello" "m1" ex2State).2.1).mpr
      ⟨("t_1", ex2Wait), by decide, by decide⟩⟩

/-- Inversion of a successful poll: the session existed with status
delivered, and the returned text is its `delivered_message`. -/
theorem pollDelivered_eq_some {o : Option AgentSession} {r : Option String}
    (h : pollDelivered o = some r) :
    ∃ s, o = some s ∧ s.status = "delivered" ∧ r = s.delivered_message := by
  cases o with
  | none => simp [pollDelivered] at h
  | some s =>
    by_cases hs : s.status = "delivered"
    · refine ⟨s, rfl, hs, ?_⟩
      simp [pollDelivered, hs] at h
      exact h.symm
    · simp [pollDelivered, hs] at h

/-- With no timeout, the polling loop only ever returns after observing a
delivered status; what it returns is that session's `delivered_message`. -/
theorem wait_infinite_returns_only_on_delivery
    (trace : Nat → Option AgentSession) :
    ∀ (fuel k : Nat) (r : Option String),
      waitForDelivery trace none fuel k = some r →
      ∃ j s, k ≤ j ∧ trace j = some s ∧ s.status = "delivered" ∧
        r = s.delivered_message := by
  intro fuel
  induction fuel with
  | zero =>
    intro k r h
    simp [waitForDelivery] at h
  | succ n ih =>
    intro k r h
    cases hp : pollDelivered (trace k) with
    | some r0 =>
      simp only [waitForDelivery, hp] at h
      rcases pollDelivered_eq_some hp with ⟨s, hs, hst, hr⟩
      refine ⟨k, s, Nat.le_refl k, hs, hst, ?_⟩
      rw [← Option.some.inj h]
      exact hr
    | none =>
      simp only [waitForDelivery, hp] at h
      rcases ih (k + 1) r h with ⟨j, s, hj, hrest⟩
      exact ⟨j, s, Nat.le_of_succ_le hj, hrest⟩

/-- With a numeric timeout and no delivery ever observed, the loop returns
the sentinel `None` once the elapsed polls cover the timeout. -/
theorem wait_timeout_expires (trace : Nat → Option AgentSession)
    (h : ∀ j, pollDelivered (trace j) = none) :
    ∀ (fuel k t : Nat), 1 ≤ fuel → t + 1 ≤ fuel + k →
      waitForDelivery trace (some t) fuel k = some none := by
  intro fuel
  induction fuel with
  | zero =>
    intro k t h1 _
    exact absurd h1 (by simp)
  | succ n ih =>
    intro k t _ h2
    simp only [waitForDelivery, h k]
    by_cases hk : t ≤ k
    · rw [if_pos hk]
    · rw [if_neg hk]
      exact ih (k + 1) t (by omega) (by omega)

/-- With a numeric timeout and no delivery ever observed, the loop is still
running (has not returned) while the elapsed polls are within the timeout. -/
theorem wait_not_before_timeout (trace : Nat → Option AgentSession)
    (h : ∀ j, pollDelivered (trace j) = none) :
    ∀ (fuel k t : Nat), fuel + k ≤ t →
      waitForDelivery trace (some t) fuel k = none := by
  intro fuel
  induction fuel with
  | zero =>
    intro k t _
    simp [waitForDelivery]
  | succ n ih =>
    intro k t h2
    simp only [waitForDelivery, h k]
    rw [if_neg (by omega)]
    exact ih (k + 1) t (by omega)

/-- Claim C3 (confirmed, in the discrete-time model where one poll iteration
is one second): `wait_for_delivery` with `timeout = None` returns only after
some poll has seen the session with status delivered, and then returns that
session's `delivered_message`; with a numeric timeout and no delivery ever
occurring it returns the timeout sentinel `None` once the timeout has
elapsed, and not before. -/
theorem C3_wait_for_delivery_blocking :
    (∀ (trace : Nat → Option AgentSession) (fuel k : Nat) (r : Option String),
      waitForDelivery trace none fuel k = some r →
      ∃ j s, k ≤ j ∧ trace j = some s ∧ s.status = "delivered" ∧
        r = s.delivered_message) ∧
    (∀ (trace : Nat → Option AgentSession) (t fuel k : Nat),
      (∀ j, pollDelivered (trace j) = none) → 1 ≤ fuel → t + 1 ≤ fuel + k →
      waitForDelivery trace (some t) fuel k = some none) ∧
    (∀ (trace : Nat → Option AgentSession) (t fuel k : Nat),
      (∀ j, pollDelivered (trace j) = none) → fuel + k ≤ t →
      waitForDelivery trace (some t) fuel k = none) :=
  ⟨fun trace => wait_infinite_returns_only_on_delivery trace,
   fun trace t fuel k hnone h1 h2 => wait_timeout_expires trace hnone fuel k t h1 h2,
   fun trace t fuel k hnone h2 => wait_not_before_timeout trace hnone fuel k t h2⟩

/-- Witness for C3: a trace that is always delivered makes the no-timeout
wait return `"x"` at once; a never-delivered trace with timeout 2 makes the
loop return the sentinel at the third poll and still be running at the
second. -/
theorem C3_witness :
    (∃ j s, 0 ≤ j ∧ (fun _ => some ex3Delivered) j = some s ∧
      s.status = "delivered" ∧ (some "x" : Option String) = s.delivered_message) ∧
    waitForDelivery (fun _ => none) (some 2) 3 0 = some none ∧
    waitForDelivery (fun _ => none) (some 2) 2 0 = none :=
  ⟨C3_wait_for_delivery_blocking.1 (fun _ => some ex3Delivered) 1 0 (some "x")
      (by decide),
   C3_wait_for_delivery_blocking.2.1 (fun _ => none) 2 3 0 (fun j => rfl)
      (by decide) (by decide),
   C3_wait_for_delivery_blocking.2.2 (fun _ => none) 2 2 0 (fun j => rfl)
      (by decide)⟩

end AgentComm

namespace StateMgr

/-- A stored conversation whose participant set strictly contains the
queried pair. -/
def ex6Conv : SMConversation :=
  { participants := ["a", "b", "x"]
    created_at := 0
    last_update := 0
    message_count := 0
    messages := [] }

/-- A successful lookup names a stored conversation containing both agents. -/
theorem find_some_mem {a1 a2 : String} :
    ∀ {convs : List (String × SMConversation)} {cid : String},
      findConversationBetweenAgents a1 a2 convs = some cid →
      ∃ c, (cid, c) ∈ convs ∧ a1 ∈ c.participants ∧ a2 ∈ c.participants := by
  intro convs
  induction convs with
  | nil =>
    intro cid h
    simp [findConversationBetweenAgents] at h
  | cons kv rest ih =>
    intro cid h
    obtain ⟨k0, c0⟩ := kv
    by_cases h0 : a1 ∈ c0.participants ∧ a2 ∈ c0.participants
    · rw [findConversationBetweenAgents, if_pos h0] at h
      exact ⟨c0, by rw [← Option.some.inj h]; simp, h0.1, h0.2⟩
    · rw [findConversationBetweenAgents, if_neg h0] at h
      rcases ih h with ⟨c, hc, h1, h2⟩
      exact ⟨c, List.mem_cons_of_mem _ hc, h1, h2⟩

/-- Writing a conversation containing both agents into a store where no
existing conversation contains both makes the lookup return its id. -/
theorem find_dictInsert_unmatched {x y cid : String} {c : SMConversation}
    (hx : x ∈ c.participants) (hy : y ∈ c.participants) :
    ∀ (convs : List (String × SMConversation)),
      (∀ kv ∈ convs, ¬(x ∈ kv.2.participants ∧ y ∈ kv.2.participants)) →
      findConversationBetweenAgents x y (AgentComm.dictInsert cid c convs)
        = some cid := by
  intro convs
  induction convs with
  | nil =>
    intro _
    rw [AgentComm.dictInsert, findConversationBetweenAgents, if_pos ⟨hx, hy⟩]
  | cons kv rest ih =>
    intro hall
    obtain ⟨k0, c0⟩ := kv
    by_cases h0 : k0 = cid
    · rw [AgentComm.dictInsert, if_pos h0, findConversationBetweenAgents,
        if_pos ⟨hx, hy⟩]
    · rw [AgentComm.dictInsert, if_neg h0, findConversationBetweenAgents,
        if_neg (hall (k0, c0) (List.mem_cons_self _ _))]
      exact ih (fun kv hmem => hall kv (List.mem_cons_of_mem _ hmem))

/-- COUNTEREXAMPLE for claim C6: `find_conversation_between_agents` matches
by CONTAINMENT, not set-equality.  A stored conversation with participants
`["a","b","x"]` — a strict superset of the query `{a, b}` — is returned for
the query `("a", "b")`. -/
theorem C6_counterexample :
    findConversationBetweenAgents "a" "b" [("c1", ex6Conv)] = some "c1" ∧
    ex6Conv.participants = ["a", "b", "x"] ∧
    decide ("x" ∈ ex6Conv.participants) = true ∧
    decide ("x" ∈ (["a", "b"] : List String)) = false := by
  refine ⟨rfl, rfl, rfl, rfl⟩

/-- Claim C6 (amended): the lookup takes a pair of agents and matches any
stored conversation whose participant list CONTAINS both (containment, not
set-equality).  The round-trip holds in this form: after
`create_conversation(a1, a2)` on a store in which no conversation already
contains both agents, the lookup with `(a1, a2)` — in either order —
returns the new conversation's id; and any successful lookup names a stored
conversation containing both queried agents. -/
theorem C6_lookup_containment_roundtrip :
    (∀ (now : Nat) (a1 a2 : String) (convs : List (String × SMConversation)),
      (∀ kv ∈ convs, ¬(a1 ∈ kv.2.participants ∧ a2 ∈ kv.2.participants)) →
      findConversationBetweenAgents a1 a2 (createConversation now a1 a2 convs).1
          = some (createConversation now a1 a2 convs).2 ∧
      findConversationBetweenAgents a2 a1 (createConversation now a1 a2 convs).1
          = some (createConversation now a1 a2 convs).2) ∧
    (∀ (a1 a2 cid : String) (convs : List (String × SMConversation)),
      findConversationBetweenAgents a1 a2 convs = some cid →
      ∃ c, (cid, c) ∈ convs ∧ a1 ∈ c.participants ∧ a2 ∈ c.participants) := by
  constructor
  · intro now a1 a2 convs hall
    constructor
    · exact find_dictInsert_unmatched (by simp) (by simp) convs hall
    · refine find_dictInsert_unmatched (by simp) (by simp) convs ?_
      intro kv hmem hc
      exact hall kv hmem ⟨hc.2, hc.1⟩
  · intro a1 a2 cid convs h
    exact find_some_mem h

/-- Witness for C6: creating a conversation between `"a"` and `"b"` in an
empty store and looking it up in both argument orders returns its id. -/
theorem C6_witness :
    findConversationBetweenAgents "a" "b" (createConversation 7 "a" "b" []).1
        = some (createConversation 7 "a" "b" []).2 ∧
    findConversationBetweenAgents "b" "a" (createConversation 7 "a" "b" []).1
        = some (createConversation 7 "a" "b" []).2 :=
  C6_lookup_containment_roundtrip.1 7 "a" "b" [] (by simp)

end StateMgr

namespace AgentComm

/-- A session already delivered, stored under the id that a colliding
`register_waiting_agent` call would generate. -/
def ex5Delivered : AgentSession :=
  { agent_tool := "tool"
    agent_id := "a"
    conversation_id := "c"
    participants := ["a"]
    message := none
    timestamp := some 50
    status := "delivered"
    delivered_message := some "x"
    delivered_at := some 60 }

/-- A state holding only the delivered session `ex5Delivered`. -/
def ex5State : FlowState :=
  { waiting_agents := [("tool_100", ex5Delivered)]
    pending_messages := []
    active_conversations := [] }

/-- COUNTEREXAMPLE for claim C5: a `register_waiting_agent` call whose
generated id (`tool` at epoch second 100, id `"tool_100"`) collides with a
stored DELIVERED session overwrites that record with a fresh waiting one —
the status at key `"tool_100"` goes from `"delivered"` back to
`"waiting"`, a backward transition the claim rules out. -/
theorem C5_counterexample :
    (dictGet "tool_100" ex5State.waiting_agents).map (fun s => s.status)
      = some "delivered" ∧
    (dictGet "tool_100"
        (applyOp (FlowOp.register 100 "tool" "a" none none none false)
          ex5State).waiting_agents).map (fun s => s.status)
      = some "waiting" := by
  refine ⟨rfl, rfl⟩

/-- Claim C5 (amended): as long as an operation is not a
`register_waiting_agent` whose generated id collides with a stored session
(`opReusesWaitingId`, the Python dict overwrite exhibited in the
counterexample), any single engine operation — register, deliver-to-agent,
deliver-to-participants, remove, cleanup — leaves every surviving session's
status unchanged or moves it from `"waiting"` to `"delivered"`; never from
`"delivered"` back to `"waiting"`.  The only other change is removal of the
whole record (the lookup after the operation no longer succeeds, which this
statement does not constrain). -/
theorem C5_status_transitions_monotone :
    ∀ (op : FlowOp) (st : FlowState),
      opReusesWaitingId op st = false →
      (st.waiting_agents.map Prod.fst).Nodup →
      (∀ kv ∈ st.waiting_agents,
        kv.2.status = "waiting" ∨ kv.2.status = "delivered") →
      ∀ (k : String) (s s' : AgentSession),
        dictGet k st.waiting_agents = some s →
        dictGet k (applyOp op st).waiting_agents = some s' →
        s'.status = s.status ∨
          (s.status = "waiting" ∧ s'.status = "delivered") := by
  intro op st hreuse hnd hstatus k s s' hget hget'
  cases op with
  | register now tool aid msg parts cid skip =>
    have hne : mkWaitingId tool now ≠ k := by
      intro heq
      simp only [opReusesWaitingId] at hreuse
      rw [heq, hget] at hreuse
      simp at hreuse
    have hsame : dictGet k
        (applyOp (FlowOp.register now tool aid msg parts cid skip)
          st).waiting_agents = dictGet k st.waiting_agents := by
      simp only [applyOp, registerWaitingAgent]
      exact dictGet_dictInsert_ne _ _ hne
    rw [hsame, hget] at hget'
    exact Or.inl (by rw [← Option.some.inj hget'])
  | deliverToAgent now wid content =>
    cases h0 : dictGet wid st.waiting_agents with
    | none =>
      simp only [applyOp, deliverMessageToAgent, h0] at hget'
      rw [hget] at hget'
      exact Or.inl (by rw [← Option.some.inj hget'])
    | some s0 =>
      simp only [applyOp, deliverMessageToAgent, h0] at hget'
      by_cases hk : wid = k
      · subst hk
        rw [dictGet_dictInsert_self] at hget'
        have hs' := (Option.some.inj hget').symm
        rcases hstatus (wid, s) (dictGet_mem hget) with hws | hds
        · right
          refine ⟨hws, ?_⟩
          rw [hs']
        · left
          rw [hs', hds]
      · rw [dictGet_dictInsert_ne _ _ hk, hget] at hget'
        exact Or.inl (by rw [← Option.some.inj hget'])
  | deliverToParticipants now cid aids content mid =>
    cases hr : (deliverLoop now cid aids content st.waiting_agents).2
    · have hsame : (applyOp
          (FlowOp.deliverToParticipants now cid aids content mid)
            st).waiting_agents = st.waiting_agents := by
        simp only [applyOp]
        rw [deliverMessageToParticipants_eq, hr]
        simp
      rw [hsame, hget] at hget'
      exact Or.inl (by rw [← Option.some.inj hget'])
    · have hw : (applyOp
          (FlowOp.deliverToParticipants now cid aids content mid)
            st).waiting_agents
          = (deliverLoop now cid aids content st.waiting_agents).1 := by
        simp only [applyOp]
        rw [deliverMessageToParticipants_eq, hr]
        simp
      rw [hw, dictGet_deliverLoop, hget, Option.map_some'] at hget'
      have h2 := Option.some.inj hget'
      rcases Bool.eq_false_or_eq_true (sessionMatches cid aids s) with hm | hm
      · rw [hm] at h2
        simp at h2
        right
        refine ⟨sessionMatches_status hm, ?_⟩
        rw [← h2]
        rfl
      · rw [hm] at h2
        simp at h2
        exact Or.inl (by rw [← h2])
  | removeAgent wid =>
    have h1 : dictGet k (dictRemove wid st.waiting_agents) = some s' := by
      simpa only [applyOp, removeWaitingAgent] using hget'
    have hmem' : (k, s') ∈ st.waiting_agents :=
      mem_of_mem_dictRemove (dictGet_mem h1)
    have hss : s = s' := dict_value_unique hnd (dictGet_mem hget) hmem'
    exact Or.inl (by rw [← hss])
  | cleanup cutoff =>
    have h1 : dictGet k (cleanupWaiting cutoff st.waiting_agents) = some s' := by
      simpa only [applyOp, cleanupOldData] using hget'
    have hmem' : (k, s') ∈ st.waiting_agents := by
      have h2 := dictGet_mem h1
      rw [cleanupWaiting] at h2
      exact (List.mem_filter.mp h2).1
    have hss : s = s' := dict_value_unique hnd (dictGet_mem hget) hmem'
    exact Or.inl (by rw [← hss])

/-- The session `ex2Wait` after `deliver_message_to_agent` flips it. -/
def ex5Flipped : AgentSession :=
  { ex2Wait with
      status := "delivered"
      delivered_message := some "msg"
      delivered_at := some 7 }

/-- Witness for C5: delivering to the waiting session `"t_1"` moves its
status from waiting to delivered, matching the allowed transition. -/
theorem C5_witness :
    ex5Flipped.status = ex2Wait.status ∨
    (ex2Wait.status = "waiting" ∧ ex5Flipped.status = "delivered") :=
  C5_status_transitions_monotone (FlowOp.deliverToAgent 7 "t_1" "msg")
    ex2State (by decide) (by decide) (by decide) "t_1" ex2Wait ex5Flipped
    (by decide) (by decide)

end AgentComm
